import Mathlib

/-!
Shallow embedding of the Phenomena data-access layer (src/unnamed/part_000,
the `db` module of an anonymous incident-reporting board).

The relational store is modelled as an explicit state value `DB`: the two
tables `reports` and `comments` are lists of rows in insertion order, and
the store-assigned serial ids are modelled by counters carried in the state.
Timestamps are integers (milliseconds since the epoch, as produced by
Date.parse / Date.now in the source); the wall clock is passed explicitly
as a `now` argument to each operation that reads it.

Each JS function `f(args)` that may both mutate the store and throw becomes
a Lean function `f : DB → args → DB × Except String α`: the first component
is the store state after the call (unchanged when the function throws before
reaching a write), the second is the thrown error message or the returned
value. `getOpenReports` is read-only, so it returns only `Except`.
-/

/-- One day, in milliseconds: the value of the SQL interval of 1 day and of
the initial expiration window, on the millisecond timestamp scale. -/
def day : Int := 86400000

/-- A row of the `reports` table: columns id, title, location, description,
password, isOpen, expirationDate (schema given in the spec, section 6). -/
structure ReportRow where
  id : Nat
  title : String
  location : String
  description : String
  password : String
  isOpen : Bool
  expirationDate : Int
  deriving Repr, DecidableEq

/-- A row of the `comments` table: columns id, reportId, content, createdAt. -/
structure Comment where
  id : Nat
  reportId : Nat
  content : String
  createdAt : Int
  deriving Repr, DecidableEq

/-- The report object returned by `getOpenReports`: the row fields, plus the
derived fields `comments` and `isExpired` built by the forEach loop, with the
password deleted. JS `delete report.password` removes the key, which we model
as an `Option` field set to `none`. -/
structure OpenReportView where
  id : Nat
  title : String
  location : String
  description : String
  password : Option String
  isOpen : Bool
  expirationDate : Int
  comments : List Comment
  isExpired : Bool
  deriving Repr, DecidableEq

/-- The report object returned by `createReport`: the freshly inserted row
with the password key deleted before returning. -/
structure ReportView where
  id : Nat
  title : String
  location : String
  description : String
  password : Option String
  isOpen : Bool
  expirationDate : Int
  deriving Repr, DecidableEq

/-- The success acknowledgment object of `closeReport`:
a bare message, no report body. -/
structure Ack where
  message : String
  deriving Repr, DecidableEq

/-- The store state: the two tables in row-insertion order, plus the
next serial id of each table. -/
structure DB where
  reports : List ReportRow
  comments : List Comment
  nextReportId : Nat
  nextCommentId : Nat
  deriving Repr, DecidableEq

/-- An empty store, the state before any report has been created. -/
def initDB : DB := { reports := [], comments := [], nextReportId := 0, nextCommentId := 0 }

/-- The error the store raises on the comments query that `getOpenReports`
builds when the id list is empty: the generated SQL text ends in IN (),
which is a syntax error, so the query call rejects. -/
def emptyInListError : String := "syntax error at or near \")\""

/-- Models the `client.query` call on the dynamically built comments query
of `getOpenReports` (source lines 42-46): with ids x1..xn the SQL is
SELECT * FROM comments WHERE reportId IN (x1,...,xn); with an empty id
list the generated text is invalid and the store rejects it. -/
def queryCommentsIn (db : DB) (ids : List Nat) : Except String (List Comment) :=
  if ids.isEmpty then
    Except.error emptyInListError
  else
    Except.ok (db.comments.filter (fun c => ids.contains c.reportId))

/-- `getOpenReports()` (source lines 30-67): select the rows with isOpen
true, batch-fetch the comments whose reportId is among their ids, then on
each report attach `comments` (the grouping by reportId, read back per id,
which yields the fetched comments with that reportId in fetch order),
compute `isExpired` as expirationDate < now, and delete `password`.
Any store error propagates unchanged (the catch block rethrows). -/
def getOpenReports (db : DB) (now : Int) : Except String (List OpenReportView) :=
  let reports := db.reports.filter (fun r => r.isOpen)
  let reportIds := reports.map (fun r => r.id)
  match queryCommentsIn db reportIds with
  | Except.error e => Except.error e
  | Except.ok fetched =>
      Except.ok (reports.map (fun r =>
        { id := r.id
          title := r.title
          location := r.location
          description := r.description
          password := none
          isOpen := r.isOpen
          expirationDate := r.expirationDate
          comments := fetched.filter (fun c => c.reportId == r.id)
          isExpired := decide (r.expirationDate < now) }))

/-- `createReport(reportFields)` (source lines 80-101): insert one row with
the given title, location, description, password and return the new row with
the password deleted. Modelled from the spec: the inserted row's `isOpen`
and `expirationDate` come from column defaults, which are not in src/ (the
schema file is missing); the spec, section 6, gives them as isOpen default
true and expirationDate default now()+1day. The store-assigned id is the
next serial value. -/
def createReport (db : DB) (title location description password : String) (now : Int) :
    DB × ReportView :=
  let newRow : ReportRow :=
    { id := db.nextReportId, title := title, location := location
      description := description, password := password
      isOpen := true, expirationDate := now + day }
  let db2 : DB := { db with reports := db.reports ++ [newRow],
                            nextReportId := db.nextReportId + 1 }
  (db2,
   { id := newRow.id, title := title, location := location
     description := description, password := none
     isOpen := true, expirationDate := newRow.expirationDate })

/-- `_getReport(reportId)` (source lines 117-130): select the report whose id
matches, password included; `rows: [report]` destructuring yields the first
matching row, or undefined (here `none`) when no row matches. -/
def _getReport (db : DB) (reportId : Nat) : Option ReportRow :=
  db.reports.find? (fun r => r.id == reportId)

/-- The update statement of `closeReport` and its zero-rows check (source
lines 165-177): UPDATE reports SET isOpen = false WHERE id = reportId, then
throw "Report not updated" if the rowCount was 0, otherwise return the
success acknowledgment. -/
def closeReportUpdate (db : DB) (reportId : Nat) : DB × Except String Ack :=
  let updatedRows :=
    db.reports.map (fun r => if r.id == reportId then { r with isOpen := false } else r)
  let db2 : DB := { db with reports := updatedRows }
  let rowCount := (db.reports.filter (fun r => r.id == reportId)).length
  if rowCount == 0 then
    (db2, Except.error "Report not updated")
  else
    (db2, Except.ok { message := "Report successfully closed!" })

/-- `closeReport(reportId, password)` (source lines 142-182): fetch the
report by id, then three guards in order, each throwing its own message
before any write; if all pass, run the update and the zero-rows check. -/
def closeReport (db : DB) (reportId : Nat) (password : String) : DB × Except String Ack :=
  match _getReport db reportId with
  | none => (db, Except.error "Report does not exist with that id")
  | some report =>
      if report.password ≠ password then
        (db, Except.error "Password incorrect for this report, please try again")
      else if !report.isOpen then
        (db, Except.error "This report has already been closed")
      else
        closeReportUpdate db reportId

/-- `createReportComment(reportId, commentFields)` (source lines 195-238):
`content` is read off the commentFields object and is the only field used.
Fetch the report by id, then three guards in order, each throwing before any
write; if all pass, insert the comment row (reportId, content, store
id/createdAt defaults), then set the report's expirationDate to
CURRENT_TIMESTAMP + interval of 1 day, and return the new comment.
The comment row's id and createdAt are store defaults modelled from the
spec (next serial id, implicit creation timestamp). -/
def createReportComment (db : DB) (reportId : Nat) (content : String) (now : Int) :
    DB × Except String Comment :=
  match _getReport db reportId with
  | none => (db, Except.error "That report does not exist, no comment has been made")
  | some report =>
      if !report.isOpen then
        (db, Except.error "That report has been closed, no comment has been made")
      else if report.expirationDate < now then
        (db, Except.error "The discussion time on this report has expired, no comment has been made")
      else
        let newComment : Comment :=
          { id := db.nextCommentId, reportId := reportId, content := content, createdAt := now }
        let db2 : DB := { db with comments := db.comments ++ [newComment],
                                  nextCommentId := db.nextCommentId + 1 }
        let bumpedRows :=
          db2.reports.map (fun r =>
            if r.id == reportId then { r with expirationDate := now + day } else r)
        let db3 : DB := { db2 with reports := bumpedRows }
        (db3, Except.ok newComment)

/-!
## Trace semantics

For the lifecycle invariants we run sequences of store operations, each
stamped with the wall-clock time at which it executes. `getOpenReports` is
read-only and never changes the state, so traces range over the three
mutating operations.
-/

/-- A mutating ReportStore operation together with its caller-supplied
arguments. -/
inductive Op where
  | create (title location description password : String)
  | close (reportId : Nat) (password : String)
  | comment (reportId : Nat) (content : String)
  deriving Repr, DecidableEq

/-- Execute one operation at wall-clock time `t`, keeping the resulting
store state (a thrown error leaves the state as the operation left it). -/
def step (db : DB) (t : Int) : Op → DB
  | Op.create ti lo de pw => (createReport db ti lo de pw t).1
  | Op.close rid pw => (closeReport db rid pw).1
  | Op.comment rid c => (createReportComment db rid c t).1

/-- Execute a timestamped trace of operations from a starting state. -/
def run : DB → List (Int × Op) → DB
  | db, [] => db
  | db, (t, op) :: rest => run (step db t op) rest

/-- The timestamps of a trace are nondecreasing, starting no earlier
than `t`. -/
def timesMono : Int → List (Int × Op) → Prop
  | _, [] => True
  | t, (t2, _) :: rest => t ≤ t2 ∧ timesMono t2 rest

/-- The time of the last operation of a trace (or `t` for the empty
trace). -/
def lastTime : Int → List (Int × Op) → Int
  | t, [] => t
  | _, (t2, _) :: rest => lastTime t2 rest

/-- Auxiliary invariant: at wall-clock time `t`, every report's
expirationDate is at most `t + day`, because every write of that column
(creation default and comment bump) stores the then-current time plus one
day. -/
def expBound (db : DB) (t : Int) : Prop :=
  ∀ r ∈ db.reports, r.expirationDate ≤ t + day

/-!
## Concrete sample stores

Small states used to evaluate the operations on concrete inputs (the
scenario of spec section 8: a report titled Leak at 5th Ave with password
p1, plus a comment on it).
-/

/-- A single open report, id 1, password p1, expiring at time 100. -/
def leakRow : ReportRow :=
  { id := 1, title := "Leak", location := "5th Ave", description := "Gas smell",
    password := "p1", isOpen := true, expirationDate := 100 }

/-- The same report after its close transition. -/
def closedLeakRow : ReportRow := { leakRow with isOpen := false }

/-- One comment on report 1. -/
def confirmedComment : Comment :=
  { id := 0, reportId := 1, content := "confirmed", createdAt := 10 }

/-- A store holding just the open report. -/
def leakDB : DB :=
  { reports := [leakRow], comments := [], nextReportId := 2, nextCommentId := 1 }

/-- A store holding just the closed report (no open reports at all). -/
def closedLeakDB : DB :=
  { reports := [closedLeakRow], comments := [], nextReportId := 2, nextCommentId := 1 }

/-- The open report together with one comment on it. -/
def commentedDB : DB :=
  { reports := [leakRow], comments := [confirmedComment], nextReportId := 2, nextCommentId := 1 }

/-- The view of leakRow that `getOpenReports commentedDB 50` returns. -/
def leakView : OpenReportView :=
  { id := 1, title := "Leak", location := "5th Ave", description := "Gas smell",
    password := none, isOpen := true, expirationDate := 100,
    comments := [confirmedComment], isExpired := false }

/-!
## Shared helper lemmas
-/

theorem getReport_mem (db : DB) (rid : Nat) (r : ReportRow)
    (h : _getReport db rid = some r) : r ∈ db.reports ∧ r.id = rid := by
  refine ⟨List.mem_of_find?_eq_some h, ?_⟩
  have hp := List.find?_some h
  simpa using hp

theorem expBound_mono {db : DB} {t t2 : Int} (hb : expBound db t) (ht : t ≤ t2) :
    expBound db t2 := by
  intro r hr
  exact le_trans (hb r hr) (by simpa using ht)

theorem expBound_initDB (t : Int) : expBound initDB t := by
  intro r hr
  simp [initDB] at hr

/-- The state after `closeReport`: either unchanged (a guard threw) or the
mapped update of the reports table; the comments table and id counters are
never touched. -/
theorem closeReport_state (db : DB) (rid : Nat) (pw : String) :
    (closeReport db rid pw).1 = db ∨
    (closeReport db rid pw).1 =
      { db with reports :=
          db.reports.map (fun r => if r.id == rid then { r with isOpen := false } else r) } := by
  unfold closeReport
  cases h : _getReport db rid with
  | none => exact Or.inl rfl
  | some report =>
      by_cases hpw : report.password ≠ pw
      · simp [hpw]
      · by_cases hopen : report.isOpen
        · right
          simp [hpw, hopen, closeReportUpdate]
          split <;> rfl
        · simp [hpw, hopen]

/-- The state after `createReportComment`: either unchanged (a guard threw)
or the comment append plus the expirationDate bump. -/
theorem createReportComment_state (db : DB) (rid : Nat) (c : String) (t : Int) :
    (createReportComment db rid c t).1 = db ∨
    (∃ report, _getReport db rid = some report ∧ report.isOpen = true ∧
      ¬ report.expirationDate < t ∧
      (createReportComment db rid c t).1 =
        { db with
            comments := db.comments ++
              [{ id := db.nextCommentId, reportId := rid, content := c, createdAt := t }],
            nextCommentId := db.nextCommentId + 1,
            reports := db.reports.map
              (fun r => if r.id == rid then { r with expirationDate := t + day } else r) }) := by
  unfold createReportComment
  cases h : _getReport db rid with
  | none => exact Or.inl rfl
  | some report =>
      by_cases hopen : report.isOpen
      · by_cases hexp : report.expirationDate < t
        · simp [hopen, hexp]
        · right
          exact ⟨report, rfl, hopen, hexp, by simp [hopen, hexp]⟩
      · simp [hopen]

theorem step_create_eq (db : DB) (t2 : Int) (ti lo de pw : String) :
    step db t2 (Op.create ti lo de pw) =
      { db with
          reports := db.reports ++
            [{ id := db.nextReportId, title := ti, location := lo, description := de,
               password := pw, isOpen := true, expirationDate := t2 + day }],
          nextReportId := db.nextReportId + 1 } := rfl

/-- Each operation, run at a time `t2` no earlier than the bound time,
re-establishes the expiration bound at `t2`: untouched rows stay under the
old bound, and every newly written expirationDate is exactly `t2 + day`. -/
theorem expBound_step {db : DB} {t : Int} (t2 : Int) (op : Op)
    (hb : expBound db t) (ht : t ≤ t2) : expBound (step db t2 op) t2 := by
  cases op with
  | create ti lo de pw =>
      intro r hr
      rw [step_create_eq] at hr
      simp only [List.mem_append, List.mem_singleton] at hr
      rcases hr with hr | hr
      · exact le_trans (hb r hr) (by simpa using ht)
      · subst hr; exact le_refl _
  | close rid pw =>
      intro r hr
      rcases closeReport_state db rid pw with h | h <;>
        rw [show step db t2 (Op.close rid pw) = (closeReport db rid pw).1 from rfl, h] at hr
      · exact le_trans (hb r hr) (by simpa using ht)
      · simp only [List.mem_map] at hr
        obtain ⟨a, ha, hfa⟩ := hr
        have hexp : r.expirationDate = a.expirationDate := by
          rw [← hfa]; split <;> rfl
        rw [hexp]
        exact le_trans (hb a ha) (by simpa using ht)
  | comment rid c =>
      intro r hr
      rcases createReportComment_state db rid c t2 with h | ⟨report, _, _, _, h⟩ <;>
        rw [show step db t2 (Op.comment rid c) = (createReportComment db rid c t2).1 from rfl,
            h] at hr
      · exact le_trans (hb r hr) (by simpa using ht)
      · simp only [List.mem_map] at hr
        obtain ⟨a, ha, hfa⟩ := hr
        by_cases hid : (a.id == rid) = true
        · rw [← hfa, if_pos hid]
        · rw [← hfa, if_neg hid]
          exact le_trans (hb a ha) (by simpa using ht)

/-- One step never decreases the expirationDate of a report already in the
store (rows are tracked by their position, which every operation
preserves: updates map the list in place and creation appends). -/
theorem step_exp_le {db : DB} {t : Int} (t2 : Int) (op : Op)
    (hb : expBound db t) (ht : t ≤ t2)
    (i : Nat) (r r2 : ReportRow)
    (hr : db.reports[i]? = some r) (hr2 : (step db t2 op).reports[i]? = some r2) :
    r.expirationDate ≤ r2.expirationDate := by
  have hi : i < db.reports.length := (List.getElem?_eq_some.mp hr).1
  cases op with
  | create ti lo de pw =>
      rw [step_create_eq] at hr2
      simp only [List.getElem?_append, if_pos hi] at hr2
      rw [hr] at hr2
      cases hr2
      exact le_refl _
  | close rid pw =>
      rcases closeReport_state db rid pw with h | h <;>
        rw [show step db t2 (Op.close rid pw) = (closeReport db rid pw).1 from rfl, h] at hr2
      · rw [hr] at hr2; cases hr2; exact le_refl _
      · simp only [List.getElem?_map, hr, Option.map_some] at hr2
        cases hr2
        have : ((if r.id == rid then { r with isOpen := false } else r) :
            ReportRow).expirationDate = r.expirationDate := by split <;> rfl
        rw [this]
  | comment rid c =>
      rcases createReportComment_state db rid c t2 with h | ⟨report, _, _, _, h⟩ <;>
        rw [show step db t2 (Op.comment rid c) = (createReportComment db rid c t2).1 from rfl,
            h] at hr2
      · rw [hr] at hr2; cases hr2; exact le_refl _
      · simp only [List.getElem?_map, hr, Option.map_some] at hr2
        cases hr2
        dsimp only
        by_cases hid : (r.id == rid) = true
        · rw [if_pos hid]
          exact le_trans (hb r (List.getElem?_mem hr)) (by simpa using ht)
        · rw [if_neg hid]

/-- Running a trace with nondecreasing timestamps keeps the expiration
bound, now taken at the trace's last timestamp. -/
theorem run_expBound (db : DB) (t : Int) (tr : List (Int × Op))
    (hb : expBound db t) (hm : timesMono t tr) :
    expBound (run db tr) (lastTime t tr) := by
  induction tr generalizing db t with
  | nil => exact hb
  | cons p rest ih =>
      obtain ⟨t2, op⟩ := p
      obtain ⟨ht, hm2⟩ := hm
      exact ih (step db t2 op) t2 (expBound_step t2 op hb ht) hm2

/-- When the three guards of `closeReport` pass, the update runs, matches
the row the existence guard found, and the call returns the success
acknowledgment together with the updated state. -/
theorem closeReport_guards_pass (db : DB) (rid : Nat) (pw : String) (r : ReportRow)
    (hr : _getReport db rid = some r) (hpw : r.password = pw) (hopen : r.isOpen = true) :
    closeReport db rid pw =
      ({ db with reports :=
          db.reports.map (fun x => if x.id == rid then { x with isOpen := false } else x) },
       Except.ok { message := "Report successfully closed!" }) := by
  obtain ⟨hmem, hid⟩ := getReport_mem db rid r hr
  have hfilter : r ∈ db.reports.filter (fun x => x.id == rid) :=
    List.mem_filter.mpr ⟨hmem, by simp [hid]⟩
  have hlen : ¬ (db.reports.filter (fun x => x.id == rid)).length = 0 := by
    intro h0
    rw [List.length_eq_zero] at h0
    rw [h0] at hfilter
    simp at hfilter
  simp only [closeReport, hr]
  rw [if_neg (by simp [hpw]), if_neg (by simp [hopen])]
  simp only [closeReportUpdate]
  rw [if_neg (by simpa using hlen)]

/-!
## Claim theorems
-/

/-- Claim C3: closeReport evaluates exactly three guards in order, each
short-circuiting with its own distinct error and leaving the store
untouched: a missing report fails with the NotFound message regardless of
the supplied password; an existing report with a non-matching password
fails with the Unauthorized message; an existing, password-matching but
already closed report fails with the InvalidState message. -/
theorem closeReport_guard_order (db : DB) (rid : Nat) (pw : String) :
    (_getReport db rid = none →
      closeReport db rid pw = (db, Except.error "Report does not exist with that id")) ∧
    (∀ r, _getReport db rid = some r → r.password ≠ pw →
      closeReport db rid pw =
        (db, Except.error "Password incorrect for this report, please try again")) ∧
    (∀ r, _getReport db rid = some r → r.password = pw → r.isOpen = false →
      closeReport db rid pw = (db, Except.error "This report has already been closed")) := by
  refine ⟨fun h => by simp [closeReport, h], fun r h hpw => by simp [closeReport, h, hpw],
    fun r h hpw hopen => ?_⟩
  simp [closeReport, h, hpw, hopen]

/-- Witness for C3: the three guard failures, evaluated on concrete stores —
a nonexistent id with an arbitrary password, a wrong password on the
existing open report, and a correct password on the already closed one. -/
theorem closeReport_guard_order_witness :
    closeReport leakDB 99 "anything" =
      (leakDB, Except.error "Report does not exist with that id") ∧
    closeReport leakDB 1 "wrong" =
      (leakDB, Except.error "Password incorrect for this report, please try again") ∧
    closeReport closedLeakDB 1 "p1" =
      (closedLeakDB, Except.error "This report has already been closed") :=
  ⟨(closeReport_guard_order leakDB 99 "anything").1 rfl,
   (closeReport_guard_order leakDB 1 "wrong").2.1 leakRow rfl (by decide),
   (closeReport_guard_order closedLeakDB 1 "p1").2.2 closedLeakRow rfl rfl rfl⟩

/-- Claim C4: when the three guards pass, closeReport runs the update that
sets isOpen to false; the update step fails with the distinct error
"Report not updated" exactly when it affected zero rows, and otherwise
returns the acknowledgment object carrying only the message
"Report successfully closed!". -/
theorem closeReport_update_outcome (db : DB) (rid : Nat) :
    ((db.reports.filter (fun r => r.id == rid)).length = 0 →
      (closeReportUpdate db rid).2 = Except.error "Report not updated") ∧
    ((db.reports.filter (fun r => r.id == rid)).length ≠ 0 →
      (closeReportUpdate db rid).2 = Except.ok { message := "Report successfully closed!" }) ∧
    ((closeReportUpdate db rid).1.reports =
      db.reports.map (fun r => if r.id == rid then { r with isOpen := false } else r)) ∧
    (∀ pw r, _getReport db rid = some r → r.password = pw → r.isOpen = true →
      closeReport db rid pw = closeReportUpdate db rid) := by
  refine ⟨fun h0 => by simp [closeReportUpdate, h0], fun hne => by simp [closeReportUpdate, hne],
    by simp [closeReportUpdate]; split <;> rfl, fun pw r hr hpw hopen => ?_⟩
  simp only [closeReport, hr]
  rw [if_neg (by simp [hpw]), if_neg (by simp [hopen])]

/-- Witness for C4: on the one-report store the update affects the row and
acknowledges; on the empty store the update affects zero rows and fails;
with passing guards closeReport reaches the update. -/
theorem closeReport_update_outcome_witness :
    (closeReportUpdate initDB 1).2 = Except.error "Report not updated" ∧
    (closeReportUpdate leakDB 1).2 = Except.ok { message := "Report successfully closed!" } ∧
    closeReport leakDB 1 "p1" = closeReportUpdate leakDB 1 :=
  ⟨(closeReport_update_outcome initDB 1).1 rfl,
   (closeReport_update_outcome leakDB 1).2.1 (by decide),
   (closeReport_update_outcome leakDB 1).2.2.2 "p1" leakRow rfl rfl rfl⟩

/-- Claim C5: for every existing report and every password different from
its stored one, closeReport fails with the Unauthorized message and
returns the store state unchanged — isOpen is never mutated by a close
attempt with an incorrect password. -/
theorem closeReport_wrong_password (db : DB) (rid : Nat) (pw : String) (r : ReportRow)
    (hr : _getReport db rid = some r) (hpw : r.password ≠ pw) :
    closeReport db rid pw =
      (db, Except.error "Password incorrect for this report, please try again") := by
  simp [closeReport, hr, hpw]

/-- Witness for C5: a wrong-password close of the concrete open report
fails and leaves the store exactly as it was. -/
theorem closeReport_wrong_password_witness :
    closeReport leakDB 1 "nope" =
      (leakDB, Except.error "Password incorrect for this report, please try again") :=
  closeReport_wrong_password leakDB 1 "nope" leakRow rfl (by decide)

/-- Claim C6: with correct credentials on an open report, closing twice
succeeds the first time and fails the second time with the InvalidState
message, and the second call changes nothing — there is no Closed→Open
transition. -/
theorem closeReport_twice (db : DB) (rid : Nat) (pw : String) (r : ReportRow)
    (hr : _getReport db rid = some r) (hpw : r.password = pw) (hopen : r.isOpen = true) :
    (closeReport db rid pw).2 = Except.ok { message := "Report successfully closed!" } ∧
    closeReport (closeReport db rid pw).1 rid pw =
      ((closeReport db rid pw).1, Except.error "This report has already been closed") := by
  obtain ⟨hmem, hid⟩ := getReport_mem db rid r hr
  have h1 := closeReport_guards_pass db rid pw r hr hpw hopen
  refine ⟨by rw [h1], ?_⟩
  have hget : _getReport (closeReport db rid pw).1 rid = some { r with isOpen := false } := by
    rw [h1]
    show (db.reports.map
      (fun x => if x.id == rid then { x with isOpen := false } else x)).find?
        (fun x => x.id == rid) = _
    rw [List.find?_map]
    have hcomp : ((fun x : ReportRow => x.id == rid) ∘
        (fun x : ReportRow => if x.id == rid then { x with isOpen := false } else x)) =
        (fun x : ReportRow => x.id == rid) := by
      funext a
      simp only [Function.comp_apply]
      split <;> rfl
    rw [hcomp]
    rw [show List.find? (fun x : ReportRow => x.id == rid) db.reports = some r from hr]
    simp [hid]
  have h2 := (closeReport_guard_order (closeReport db rid pw).1 rid pw).2.2
    { r with isOpen := false } hget (by simpa using hpw) rfl
  exact h2

/-- Witness for C6: closing the concrete open report with its password
succeeds, and immediately closing it again with the same password fails
with the already-closed message and leaves the state alone. -/
theorem closeReport_twice_witness :
    (closeReport leakDB 1 "p1").2 = Except.ok { message := "Report successfully closed!" } ∧
    closeReport (closeReport leakDB 1 "p1").1 1 "p1" =
      ((closeReport leakDB 1 "p1").1, Except.error "This report has already been closed") :=
  closeReport_twice leakDB 1 "p1" leakRow rfl rfl rfl

/-- Claim C10: in a sequential execution the "Report not updated" branch of
closeReport is unreachable — no call ever fails with that message, because
the update's WHERE clause matches by id alone and the existence guard has
already found a row with that id; every call on an existing, open report
with the matching password succeeds. -/
theorem closeReport_no_lost_update (db : DB) (rid : Nat) (pw : String) :
    (closeReport db rid pw).2 ≠ Except.error "Report not updated" ∧
    (∀ r, _getReport db rid = some r → r.password = pw → r.isOpen = true →
      (closeReport db rid pw).2 = Except.ok { message := "Report successfully closed!" }) := by
  constructor
  · cases hr : _getReport db rid with
    | none => simp [closeReport, hr]
    | some r =>
        by_cases hpw : r.password = pw
        · by_cases hopen : r.isOpen = true
          · rw [closeReport_guards_pass db rid pw r hr hpw hopen]
            simp
          · have h3 := (closeReport_guard_order db rid pw).2.2 r hr hpw
              (by simpa using hopen)
            rw [h3]
            simp
        · rw [(closeReport_guard_order db rid pw).2.1 r hr hpw]
          simp
  · intro r hr hpw hopen
    rw [closeReport_guards_pass db rid pw r hr hpw hopen]

/-- Witness for C10: the concrete valid close returns the acknowledgment,
not the lost-update error. -/
theorem closeReport_no_lost_update_witness :
    (closeReport leakDB 1 "p1").2 ≠ Except.error "Report not updated" ∧
    (closeReport leakDB 1 "p1").2 = Except.ok { message := "Report successfully closed!" } :=
  ⟨(closeReport_no_lost_update leakDB 1 "p1").1,
   (closeReport_no_lost_update leakDB 1 "p1").2 leakRow rfl rfl rfl⟩

/-- Claim C7: createReportComment evaluates three guards in order — missing
report, closed report, expired report (expired meaning expirationDate is
strictly before now) — each failing with its own message and leaving the
store untouched (no comment row inserted, report unchanged); when the
report exists, is open, and expirationDate is at least now, the comment is
accepted. -/
theorem createReportComment_guard_spec (db : DB) (rid : Nat) (c : String) (now : Int) :
    (_getReport db rid = none →
      createReportComment db rid c now =
        (db, Except.error "That report does not exist, no comment has been made")) ∧
    (∀ r, _getReport db rid = some r → r.isOpen = false →
      createReportComment db rid c now =
        (db, Except.error "That report has been closed, no comment has been made")) ∧
    (∀ r, _getReport db rid = some r → r.isOpen = true → r.expirationDate < now →
      createReportComment db rid c now =
        (db,
         Except.error "The discussion time on this report has expired, no comment has been made")) ∧
    (∀ r, _getReport db rid = some r → r.isOpen = true → now ≤ r.expirationDate →
      (createReportComment db rid c now).2 =
        Except.ok { id := db.nextCommentId, reportId := rid, content := c, createdAt := now }) := by
  refine ⟨fun h => by simp [createReportComment, h],
    fun r h hopen => by simp [createReportComment, h, hopen],
    fun r h hopen hexp => by simp [createReportComment, h, hopen, hexp],
    fun r h hopen hexp => ?_⟩
  simp [createReportComment, h, hopen, not_lt.mpr hexp]

/-- Witness for C7: the three guard failures and one acceptance, on the
concrete stores — a missing id, the closed report, the open report past
its expiration (time 200 > 100), and the open report within its window
(time 50 ≤ 100). -/
theorem createReportComment_guard_spec_witness :
    createReportComment leakDB 99 "confirmed" 50 =
      (leakDB, Except.error "That report does not exist, no comment has been made") ∧
    createReportComment closedLeakDB 1 "confirmed" 50 =
      (closedLeakDB, Except.error "That report has been closed, no comment has been made") ∧
    createReportComment leakDB 1 "confirmed" 200 =
      (leakDB,
       Except.error "The discussion time on this report has expired, no comment has been made") ∧
    (createReportComment leakDB 1 "confirmed" 50).2 =
      Except.ok { id := 1, reportId := 1, content := "confirmed", createdAt := 50 } :=
  ⟨(createReportComment_guard_spec leakDB 99 "confirmed" 50).1 rfl,
   (createReportComment_guard_spec closedLeakDB 1 "confirmed" 50).2.1 closedLeakRow rfl rfl,
   (createReportComment_guard_spec leakDB 1 "confirmed" 200).2.2.1 leakRow rfl rfl (by decide),
   (createReportComment_guard_spec leakDB 1 "confirmed" 50).2.2.2 leakRow rfl rfl (by decide)⟩

/-- Claim C8: when the guards pass, createReportComment appends exactly one
comment row carrying the given reportId and content, then sets the
report's expirationDate to exactly now + 1 day — an absolute reset from
the current time, independent of the old expiration — and returns the new
comment's full stored representation. -/
theorem createReportComment_success_effects (db : DB) (rid : Nat) (c : String) (now : Int)
    (r : ReportRow) (hr : _getReport db rid = some r) (hopen : r.isOpen = true)
    (hexp : now ≤ r.expirationDate) :
    (createReportComment db rid c now).2 =
      Except.ok { id := db.nextCommentId, reportId := rid, content := c, createdAt := now } ∧
    (createReportComment db rid c now).1.comments =
      db.comments ++ [{ id := db.nextCommentId, reportId := rid, content := c, createdAt := now }] ∧
    (createReportComment db rid c now).1.reports =
      db.reports.map
        (fun x => if x.id == rid then { x with expirationDate := now + day } else x) := by
  refine ⟨?_, ?_, ?_⟩ <;> simp [createReportComment, hr, hopen, not_lt.mpr hexp]

/-- Witness for C8: commenting on the concrete open report at time 50
returns the new comment row, appends it to the comments table, and resets
the report's expiration to 50 + day (not 100 + day). -/
theorem createReportComment_success_effects_witness :
    (createReportComment leakDB 1 "confirmed" 50).2 =
      Except.ok { id := 1, reportId := 1, content := "confirmed", createdAt := 50 } ∧
    (createReportComment leakDB 1 "confirmed" 50).1.comments =
      [{ id := 1, reportId := 1, content := "confirmed", createdAt := 50 }] ∧
    (createReportComment leakDB 1 "confirmed" 50).1.reports =
      [{ leakRow with expirationDate := 50 + day }] :=
  createReportComment_success_effects leakDB 1 "confirmed" 50 leakRow rfl rfl (by decide)

/-- Claim C1 (refuted by the code): the claim says that with no open
reports the comment fetch is skipped and an empty sequence returned
without failing; but getOpenReports always issues the comments query, and
over an empty id set the generated SQL text is the invalid
SELECT * FROM comments WHERE reportId IN (), so the store rejects it and
the whole call fails instead of returning the empty sequence. Evaluated
here on a store whose only report is closed. -/
theorem getOpenReports_no_open_reports_fails :
    getOpenReports closedLeakDB 50 = Except.error emptyInListError ∧
    getOpenReports initDB 50 = Except.error emptyInListError := ⟨rfl, rfl⟩

/-- Claim C2: every report object that getOpenReports returns has isOpen
true, has its password deleted, has isExpired computed as
expirationDate < now, and carries as `comments` exactly the stored
comments whose reportId matches it — the empty list, never an absent
field, when it has none. -/
theorem getOpenReports_view_spec (db : DB) (now : Int) (views : List OpenReportView)
    (h : getOpenReports db now = Except.ok views) :
    ∀ v ∈ views, v.isOpen = true ∧ v.password = none ∧
      v.isExpired = decide (v.expirationDate < now) ∧
      v.comments = db.comments.filter (fun c => c.reportId == v.id) := by
  intro v hv
  cases hq : queryCommentsIn db
      ((db.reports.filter (fun r => r.isOpen)).map (fun r => r.id)) with
  | error e =>
      rw [getOpenReports, hq] at h
      cases h
  | ok fetched =>
      simp only [getOpenReports, hq, Except.ok.injEq] at h
      subst h
      rw [List.mem_map] at hv
      obtain ⟨r, hrmem, hrv⟩ := hv
      have hropen : r.isOpen = true := (List.mem_filter.mp hrmem).2
      subst hrv
      refine ⟨hropen, rfl, rfl, ?_⟩
      show fetched.filter (fun c => c.reportId == r.id) =
        db.comments.filter (fun c => c.reportId == r.id)
      have hfetched : fetched = db.comments.filter
          (fun c => ((db.reports.filter (fun r => r.isOpen)).map
            (fun r => r.id)).contains c.reportId) := by
        have hne : ¬ ((db.reports.filter (fun r => r.isOpen)).map
            (fun r => r.id)).isEmpty = true := by
          have : r.id ∈ (db.reports.filter (fun r => r.isOpen)).map (fun r => r.id) :=
            List.mem_map_of_mem _ hrmem
          intro hemp
          rw [List.isEmpty_iff] at hemp
          rw [hemp] at this
          simp at this
        simp only [queryCommentsIn, if_neg hne, Except.ok.injEq] at hq
        exact hq.symm
      rw [hfetched, List.filter_filter]
      apply List.filter_congr
      intro c _
      by_cases hcr : (c.reportId == r.id) = true
      · have hceq : c.reportId = r.id := by simpa using hcr
        have hin : ((db.reports.filter (fun r => r.isOpen)).map
            (fun r => r.id)).contains c.reportId = true := by
          rw [hceq]
          simpa using List.mem_map_of_mem (fun r : ReportRow => r.id) hrmem
        rw [hcr, hin]
        rfl
      · simp [hcr]


/-- Witness for C2: on the store holding the open report and one comment,
getOpenReports succeeds and the single returned view satisfies all four
field properties. -/
theorem getOpenReports_view_spec_witness :
    getOpenReports commentedDB 50 = Except.ok [leakView] ∧
    (leakView.isOpen = true ∧ leakView.password = none ∧
      leakView.isExpired = decide (leakView.expirationDate < 50) ∧
      leakView.comments = commentedDB.comments.filter (fun c => c.reportId == leakView.id)) :=
  ⟨rfl, getOpenReports_view_spec commentedDB 50 [leakView] rfl leakView
    (List.mem_singleton.mpr rfl)⟩

/-- Claim C9: in every state reachable from the empty store by a trace of
operations executed at nondecreasing wall-clock times, no operation
decreases any report's expirationDate: creation initializes it to the
creation time plus one day, the comment bump — the only other write of
that column — replaces a value that the reachability invariant bounds by
the last time plus one day with the current time plus one day, and every
other operation leaves it untouched. Rows are tracked by their position
in the table, which all operations preserve. -/
theorem expirationDate_monotone (t0 t2 : Int) (tr : List (Int × Op)) (op : Op)
    (hm : timesMono t0 tr) (ht : lastTime t0 tr ≤ t2)
    (i : Nat) (r r2 : ReportRow)
    (hr : (run initDB tr).reports[i]? = some r)
    (hr2 : (step (run initDB tr) t2 op).reports[i]? = some r2) :
    r.expirationDate ≤ r2.expirationDate :=
  step_exp_le t2 op (run_expBound initDB t0 tr (expBound_initDB t0) hm) ht i r r2 hr hr2

/-- Witness for C9: create a report at time 0 (expiration day), then
comment on it at time 5: its expiration moves forward to 5 + day. -/
theorem expirationDate_monotone_witness :
    (run initDB [(0, Op.create "Leak" "5th Ave" "Gas smell" "p1")]).reports[0]? =
      some { id := 0, title := "Leak", location := "5th Ave", description := "Gas smell",
             password := "p1", isOpen := true, expirationDate := day } ∧
    (step (run initDB [(0, Op.create "Leak" "5th Ave" "Gas smell" "p1")]) 5
        (Op.comment 0 "confirmed")).reports[0]? =
      some { id := 0, title := "Leak", location := "5th Ave", description := "Gas smell",
             password := "p1", isOpen := true, expirationDate := 5 + day } ∧
    (86400000 : Int) ≤ 5 + day :=
  ⟨rfl, rfl,
   expirationDate_monotone 0 5 [(0, Op.create "Leak" "5th Ave" "Gas smell" "p1")]
     (Op.comment 0 "confirmed") ⟨le_refl 0, trivial⟩ (by decide) 0
     { id := 0, title := "Leak", location := "5th Ave", description := "Gas smell",
       password := "p1", isOpen := true, expirationDate := day }
     { id := 0, title := "Leak", location := "5th Ave", description := "Gas smell",
       password := "p1", isOpen := true, expirationDate := 5 + day }
     rfl rfl⟩
